import Mathlib

/-!
Verification development for the cv-sorting-project Python ML service.

This file gives a shallow embedding, in Lean 4, of the pure computational
core of the service:

* `app/services/scoring_service.py`  — criteria-based scoring,
* `app/services/matching_service.py` — the sort/rank/truncate step of
  `find_matches`,
* `app/api/routes/ocr_extraction.py` — column separation, fuzzy section
  headers, tier-1 personal-info extraction and the structured-extraction
  route,
* `app/models/ocr.py`                — `_detect_tables_from_lines`.

Modelling conventions:

* Python numbers (ints and floats) are modelled as `ℤ` / `ℚ`, computed
  exactly; `round` is Python 3 round-half-to-even (`pyRound`), `int(x)`
  is truncation toward zero (`pyInt`).
* Python strings are Lean `String`s.  `str.lower` / `str.strip` /
  `str.split` are modelled on ASCII data (`pyLower`, `pyStrip`,
  `pySplitWs`); all concrete inputs used below are ASCII.
* Python dicts that are only used through insertion-order iteration and
  key lookup are modelled as association lists with overwrite-on-insert
  (`insertOverwrite`), which preserves exactly the observable dict
  behaviour (first-insertion key order, last-write value).
* Fallible Python code (`int(..)` on a non-numeric string, an HTTP 422)
  is modelled with `Except`.
* `difflib.SequenceMatcher.ratio` is left as an explicit function
  parameter `sim`; theorems about the fuzzy matcher quantify over it,
  so they hold for the real similarity function as an instance.
-/

namespace CvSort

/-! ## Python string and number primitives

All string primitives are implemented over `List Char` (rather than
through the byte-position-based core `String` functions) so that every
definition in the file evaluates inside the kernel. -/

/-- Python `str.isspace` characters (`\s`, ASCII model: the six
Python whitespace characters). -/
def pyIsSpace (c : Char) : Bool :=
  c = ' ' || c = '\t' || c = '\n' || c = '\r' || c = '\x0b' || c = '\x0c'

/-- Python `str.lower()` (ASCII model). -/
def pyLower (s : String) : String := ⟨s.data.map Char.toLower⟩

/-- Python `str.strip()` (whitespace at both ends). -/
def pyStrip (s : String) : String :=
  ⟨((s.data.dropWhile pyIsSpace).reverse.dropWhile pyIsSpace).reverse⟩

/-- Accumulating worker for `str.split()` with no argument. -/
def splitWsGo (acc : List Char) : List Char → List String
  | [] => if acc.isEmpty then [] else [⟨acc.reverse⟩]
  | c :: cs =>
      if pyIsSpace c then
        if acc.isEmpty then splitWsGo [] cs
        else ⟨acc.reverse⟩ :: splitWsGo [] cs
      else splitWsGo (c :: acc) cs

/-- Python `str.split()` with no argument: split on whitespace runs,
dropping empty pieces. -/
def pySplitWs (s : String) : List String := splitWsGo [] s.data

/-- Accumulating worker for `str.split(sep)` with a one-character
separator. -/
def splitCharGo (sep : Char) (acc : List Char) : List Char → List String
  | [] => [⟨acc.reverse⟩]
  | c :: cs =>
      if c = sep then ⟨acc.reverse⟩ :: splitCharGo sep [] cs
      else splitCharGo sep (c :: acc) cs

/-- Python `str.split(sep)` for a one-character separator (keeps empty
pieces, as Python does with an explicit separator). -/
def pySplitChar (sep : Char) (s : String) : List String := splitCharGo sep [] s.data

/-- Python `sep.join(list)`. -/
def joinSep (sep : String) : List String → String
  | [] => ""
  | x :: xs => xs.foldl (fun a b => a ++ sep ++ b) x

/-- Python `s.startswith(p)`. -/
def pyStartsWith (s p : String) : Bool := p.data.isPrefixOf s.data

/-- The first `n` characters of a string (`s[:n]`). -/
def pyTake (s : String) (n : ℕ) : String := ⟨s.data.take n⟩

/-- Python `needle in hay` on strings (substring test; the empty needle
is contained in everything, as in Python). -/
def strContains (hay needle : String) : Bool :=
  hay.data.tails.any (fun t => needle.data.isPrefixOf t)

/-- The floor of a rational, computed by floor-division of numerator
by denominator (kernel-reducible, unlike the `FloorRing` instance). -/
def ratFloorZ (q : ℚ) : ℤ := q.num.fdiv q.den

/-- Python `int(x)` on a float/real value: truncation toward zero. -/
def pyInt (q : ℚ) : ℤ :=
  if 0 ≤ q then ratFloorZ q else -(ratFloorZ (-q))

/-- Python 3 `round(x)`: round half to even. -/
def pyRound (q : ℚ) : ℤ :=
  let f : ℤ := ratFloorZ q
  let r : ℚ := q - f
  if r < 1/2 then f
  else if 1/2 < r then f + 1
  else if f % 2 = 0 then f else f + 1

/-- Python 3 `round(x, 2)`: round to two decimal places, half to even. -/
def pyRound2 (q : ℚ) : ℚ :=
  (pyRound (q * 100) : ℚ) / 100

/-- Insert into an association list with Python-dict semantics: an
existing key keeps its position and gets the new value; a new key is
appended at the end. -/
def insertOverwrite (d : List (String × α)) (k : String) (v : α) :
    List (String × α) :=
  match d with
  | [] => [(k, v)]
  | (k', v') :: rest =>
      if k' = k then (k', v) :: rest
      else (k', v') :: insertOverwrite rest k v

/-! ## `scoring_service.py`: data model -/

/-- `ScoringCriterion` dataclass. -/
structure ScoringCriterion where
  criteria_type : String
  criteria_value : String
  points : ℤ
  is_required : Bool := false
  weight : ℚ := 1
  min_value : Option ℤ := none
  per_unit_points : Option ℚ := none
  max_points : Option ℤ := none
deriving Repr, DecidableEq

/-- `CriterionResult` dataclass. -/
structure CriterionResult where
  criteria_type : String
  criteria_value : String
  points_possible : ℤ
  points_earned : ℤ
  is_required : Bool
  matched : Bool
  details : Option String := none
deriving Repr, DecidableEq

/-- `ScoringResult` dataclass. -/
structure ScoringResult where
  total_points : ℤ
  max_points : ℤ
  percentage : ℚ
  matched_criteria : List CriterionResult := []
  missing_criteria : List CriterionResult := []
  required_missing : List CriterionResult := []
  disqualified : Bool := false
  disqualification_reason : Option String := none
deriving Repr, DecidableEq

/-- The `languages` entry of candidate data may be a dict, a list, or
anything else (`_normalize_dict` handles all three). -/
inductive LangInput where
  | dict (kvs : List (String × String))
  | list (items : List String)
  | other
deriving Repr, DecidableEq

/-- Candidate profile data as consumed by `calculate_score`
(`candidate_data.get(...)` with the defaults used there). -/
structure CandidateData where
  skills : List String := []
  languages : LangInput := .dict []
  certifications : List String := []
  totalExperienceYears : Option ℚ := none
  educationLevel : Option String := none
deriving Repr, DecidableEq

/-- `EDUCATION_LEVELS` (index = rank). -/
def EDUCATION_LEVELS : List String :=
  ["high_school", "associate", "bachelor", "master", "doctorate", "phd"]

/-- `LANGUAGE_PROFICIENCY_SCORES`. -/
def LANGUAGE_PROFICIENCY_SCORES : List (String × ℚ) :=
  [("native", 1), ("fluent", 9/10), ("professional", 7/10),
   ("intermediate", 1/2), ("basic", 3/10), ("beginner", 1/5),
   ("muttersprachler", 1), ("fließend", 9/10), ("verhandlungssicher", 4/5),
   ("fortgeschritten", 3/5), ("grundkenntnisse", 3/10),
   ("anadil", 1), ("akıcı", 9/10), ("ileri", 7/10), ("orta", 1/2),
   ("başlangıç", 1/5)]

/-- `SKILL_SYNONYMS`. -/
def SKILL_SYNONYMS : List (String × List String) :=
  [("javascript", ["js", "ecmascript", "es6", "es2015"]),
   ("typescript", ["ts"]),
   ("python", ["py", "python3"]),
   ("java", ["j2ee", "jee"]),
   ("c++", ["cpp", "cplusplus"]),
   ("c#", ["csharp", "c sharp", "dotnet", ".net"]),
   ("react", ["reactjs", "react.js"]),
   ("angular", ["angularjs", "angular.js"]),
   ("vue", ["vuejs", "vue.js"]),
   ("nodejs", ["node", "node.js"]),
   ("express", ["expressjs", "express.js"]),
   ("sap", ["sap erp", "sap ag"]),
   ("abap", ["abap/4"]),
   ("fiori", ["sap fiori", "sapui5", "ui5"]),
   ("hana", ["sap hana", "s/4hana", "s4hana"]),
   ("btp", ["sap btp", "business technology platform", "cloud foundry"]),
   ("softwareentwicklung", ["software development", "yazılım geliştirme"]),
   ("datenbanken", ["databases", "veritabanı"]),
   ("programmierung", ["programming", "programlama"]),
   ("projektmanagement", ["project management", "proje yönetimi"]),
   ("yazılım", ["software"]),
   ("veri analizi", ["data analysis", "datenanalyse"]),
   ("web geliştirme", ["web development", "webentwicklung"]),
   ("aws", ["amazon web services", "amazon aws"]),
   ("azure", ["microsoft azure", "ms azure"]),
   ("gcp", ["google cloud", "google cloud platform"]),
   ("machine learning", ["ml", "makine öğrenimi", "maschinelles lernen"]),
   ("deep learning", ["dl", "derin öğrenme"]),
   ("data science", ["datenwissenschaft", "veri bilimi"]),
   ("artificial intelligence", ["ai", "ki", "künstliche intelligenz", "yapay zeka"])]

/-! ## `scoring_service.py`: normalisation helpers -/

/-- `_normalize_set`: drop falsy items, lowercase and strip each.
(The Python result is a set; every use below is invariant under
duplication and order, so a list keeping duplicates is observably
equal for membership and `any`-style scans.) -/
def normalizeSet (items : List String) : List String :=
  (items.filter (· ≠ "")).map (fun s => pyStrip (pyLower s))

/-- `_normalize_dict`: languages dict or list to a lowercased dict. -/
def normalizeDict : LangInput → List (String × String)
  | .dict kvs =>
      kvs.foldl (fun acc kv => insertOverwrite acc (pyLower kv.1) (pyLower kv.2)) []
  | .list items =>
      (items.filter (· ≠ "")).foldl
        (fun acc s => insertOverwrite acc (pyLower s) "professional") []
  | .other => []

/-- `_normalize_string`. -/
def normalizeString : Option String → String
  | some s => if s = "" then "" else pyStrip (pyLower s)
  | none => ""

/-- `_get_education_rank`. -/
def getEducationRank (level : String) : ℕ :=
  let l := pyStrip (pyLower level)
  match EDUCATION_LEVELS.findIdx? (· = l) with
  | some i => i + 1
  | none =>
      match EDUCATION_LEVELS.findIdx?
          (fun edu => strContains l edu || strContains edu l) with
      | some i => i + 1
      | none => 0

/-- `_check_education_match`. -/
def checkEducationMatch (candidateLevel requiredLevel : String) : Bool :=
  let c := getEducationRank candidateLevel
  let r := getEducationRank requiredLevel
  decide (r ≤ c) && decide (0 < c)

/-- `_check_skill_match`.  Returns `(matched, detail)`.
(Note: the source wraps skill names in single quotes inside detail
strings; the quote characters are left out of the embedded strings.
No theorem below depends on a detail string.) -/
def checkSkillMatch (required : String) (skills : List String) :
    Bool × String :=
  if required ∈ skills then (true, "found (exact match)")
  else
    match skills.find? (fun cs => strContains cs required || strContains required cs) with
    | some cs => (true, "found (partial match: " ++ cs ++ ")")
    | none =>
        match SKILL_SYNONYMS.findSome? (fun grp =>
          let variants := grp.1 :: grp.2
          if required ∈ variants || variants.any (fun v => strContains v required) then
            variants.findSome? (fun variant =>
              if variant ∈ skills then
                some ("found (synonym match: " ++ variant ++ ")")
              else
                skills.findSome? (fun cs =>
                  if strContains cs variant || strContains variant cs then
                    some ("found (synonym partial: " ++ cs ++ ")")
                  else none))
          else none) with
        | some d => (true, d)
        | none => (false, "not found")

/-! ## `scoring_service.py`: evaluation -/

/-- Result dict of `_evaluate_criterion`. -/
structure EvalOut where
  matched : Bool
  points : ℤ
  details : Option String := none
deriving Repr, DecidableEq

/-- Python `int(s)` on a string: optional sign, then digits
(whitespace stripped). `none` models the `ValueError`. -/
def pyIntParse? (s : String) : Option ℤ :=
  let t := (pyStrip s).data
  let signed : ℤ × List Char :=
    match t with
    | '-' :: rest => (-1, rest)
    | '+' :: rest => (1, rest)
    | l => (1, l)
  if signed.2 ≠ [] && signed.2.all Char.isDigit then
    some (signed.1 * (signed.2.foldl (fun n c => n * 10 + (c.toNat - 48)) 0 : ℕ))
  else none

/-- `_evaluate_criterion`.  The `Except` captures the `ValueError`
raised by `int(criterion.criteria_value)` on a non-numeric value. -/
def evaluateCriterion (c : ScoringCriterion) (skills : List String)
    (langs : List (String × String)) (certs : List String)
    (years : ℚ) (edu : String) : Except String EvalOut :=
  let ctype := pyLower c.criteria_type
  let value := pyLower c.criteria_value
  let maxPts : ℤ := pyInt ((c.points : ℚ) * c.weight)
  if ctype = "skill" then
    let m := checkSkillMatch value skills
    .ok ⟨m.1, if m.1 then maxPts else 0,
         some ("Skill " ++ c.criteria_value ++ " " ++ m.2)⟩
  else if ctype = "language" then
    match langs.lookup value with
    | some proficiency =>
        let mult := (LANGUAGE_PROFICIENCY_SCORES.lookup proficiency).getD (1/2)
        .ok ⟨true, pyInt ((maxPts : ℚ) * mult),
             some ("Language " ++ c.criteria_value ++ " at " ++ proficiency ++ " level")⟩
    | none =>
        .ok ⟨false, 0, some ("Language " ++ c.criteria_value ++ " not found")⟩
  else if ctype = "certification" then
    let m := value ∈ certs || certs.any (fun cert => strContains cert value)
    .ok ⟨m, if m then maxPts else 0,
         some ("Certification " ++ c.criteria_value ++
               (if m then " found" else " not found"))⟩
  else if ctype = "experience" then
    -- `criterion.min_value or int(criterion.criteria_value)`:
    -- a present but zero min_value is falsy and falls through to int().
    let minYearsE : Except String ℤ :=
      match c.min_value with
      | some m =>
          if m ≠ 0 then .ok m
          else match pyIntParse? c.criteria_value with
               | some v => .ok v
               | none => .error ("invalid literal for int: " ++ c.criteria_value)
      | none =>
          match pyIntParse? c.criteria_value with
          | some v => .ok v
          | none => .error ("invalid literal for int: " ++ c.criteria_value)
    match minYearsE with
    | .error e => .error e
    | .ok minYears =>
      if (minYears : ℚ) ≤ years then
        match c.per_unit_points with
        | some pup =>
            if pup ≠ 0 then
              let pts := pyInt (years * pup)
              let pts :=
                match c.max_points with
                | some mp => if mp ≠ 0 then min pts mp else pts
                | none => pts
              .ok ⟨true, pts, some "years experience (per-unit points)"⟩
            else
              .ok ⟨true, maxPts, some "years meet requirement"⟩
        | none =>
            .ok ⟨true, maxPts, some "years meet requirement"⟩
      else
        if 0 < years && !c.is_required then
          .ok ⟨false, pyInt ((maxPts : ℚ) * (years / (minYears : ℚ))),
               some "below requirement (partial credit)"⟩
        else
          .ok ⟨false, 0, some "below requirement"⟩
  else if ctype = "education" then
    if checkEducationMatch edu value then
      .ok ⟨true, maxPts,
           some ("Education " ++ edu ++ " meets " ++ value ++ " requirement")⟩
    else
      let candRank := getEducationRank edu
      let reqRank := getEducationRank value
      if 0 < candRank && 0 < reqRank then
        .ok ⟨false,
             if c.is_required then 0
             else pyInt ((maxPts : ℚ) * ((candRank : ℚ) / (reqRank : ℚ))),
             some ("Education " ++ edu ++ " below " ++ value)⟩
      else
        .ok ⟨false, 0, some "Education level not matched"⟩
  else
    .ok ⟨false, 0, some ("Unknown criteria type: " ++ ctype)⟩

/-- The `CriterionResult` built for one criterion inside the
`calculate_score` loop. -/
def criterionResultOf (c : ScoringCriterion) (skills : List String)
    (langs : List (String × String)) (certs : List String)
    (years : ℚ) (edu : String) : Except String CriterionResult :=
  match evaluateCriterion c skills langs certs years edu with
  | .error e => .error e
  | .ok r =>
      .ok ⟨c.criteria_type, c.criteria_value,
           pyInt ((c.points : ℚ) * c.weight), r.points,
           c.is_required, r.matched, r.details⟩

/-- Accumulator of the `calculate_score` loop. -/
structure ScoreState where
  matched : List CriterionResult := []
  missing : List CriterionResult := []
  reqMissing : List CriterionResult := []
  total : ℤ := 0
  maxPts : ℤ := 0
deriving Repr, DecidableEq

/-- One iteration of the `calculate_score` loop. -/
def criterionStep (skills : List String) (langs : List (String × String))
    (certs : List String) (years : ℚ) (edu : String)
    (st : ScoreState) (c : ScoringCriterion) : Except String ScoreState :=
  match criterionResultOf c skills langs certs years edu with
  | .error e => .error e
  | .ok cr =>
      if cr.matched then
        .ok { st with maxPts := st.maxPts + cr.points_possible,
                      total := st.total + cr.points_earned,
                      matched := st.matched ++ [cr] }
      else
        .ok { st with maxPts := st.maxPts + cr.points_possible,
                      missing := st.missing ++ [cr],
                      reqMissing := if c.is_required then st.reqMissing ++ [cr]
                                    else st.reqMissing }

/-- The `for criterion in criteria` loop of `calculate_score`
(an exception raised by `int(..)` aborts the whole call). -/
def scoreLoop (skills : List String) (langs : List (String × String))
    (certs : List String) (years : ℚ) (edu : String) :
    ScoreState → List ScoringCriterion → Except String ScoreState
  | st, [] => .ok st
  | st, c :: rest =>
      match criterionStep skills langs certs years edu st c with
      | .error e => .error e
      | .ok st1 => scoreLoop skills langs certs years edu st1 rest

/-- `ScoringService.calculate_score`. -/
def calculateScore (cd : CandidateData) (criteria : List ScoringCriterion) :
    Except String ScoringResult :=
  if criteria = [] then
    .ok ⟨0, 0, 100, [], [], [], false, none⟩
  else
    match scoreLoop (normalizeSet cd.skills) (normalizeDict cd.languages)
        (normalizeSet cd.certifications) (cd.totalExperienceYears.getD 0)
        (normalizeString cd.educationLevel) {} criteria with
    | .error e => .error e
    | .ok st =>
        .ok ⟨st.total, st.maxPts,
             pyRound2 (if 0 < st.maxPts then (st.total : ℚ) / (st.maxPts : ℚ) * 100 else 0),
             st.matched, st.missing, st.reqMissing,
             !st.reqMissing.isEmpty,
             if !st.reqMissing.isEmpty then
               some ("Missing required criteria: " ++
                     joinSep ", "
                       ((st.reqMissing.take 3).map (·.criteria_value)))
             else none⟩

/-! ## `matching_service.py`: `MatchResult` and the final
sort / rank / truncate step of `find_matches` -/

/-- `MatchResult` dataclass.  The `score_breakdown` dict and the
criteria lists carry data the finalisation step never inspects; they
are modelled with flat key-value shapes. -/
structure MatchResult where
  candidate_id : String
  job_posting_id : String
  cosine_similarity : ℚ
  criteria_score : ℤ
  criteria_max_score : ℤ
  combined_score : ℚ
  rank : ℕ
  score_breakdown : List (String × ℚ) := []
  matched_criteria : List (String × String) := []
  missing_criteria : List (String × String) := []
  disqualified : Bool := false
deriving Repr, DecidableEq

/-- The tail of `SemanticMatchingService.find_matches`, applied to the
list of already-built results:
`results.sort(key=..., reverse=True)` (a stable descending sort on
`combined_score`), rank assignment `i + 1` over the first `limit`
entries, and the final `results[:limit]`. -/
def findMatchesFinalize (results : List MatchResult) (limit : ℕ) :
    List MatchResult :=
  let sortedResults :=
    results.mergeSort (fun a b => decide (b.combined_score ≤ a.combined_score))
  ((sortedResults.take limit).enum).map (fun p => { p.2 with rank := p.1 + 1 })

/-! ## `ocr_extraction.py`: `separate_columns` -/

/-- A bounding box as received by `separate_columns`: either the
nested 4-point form `[[x1,y1], ...]` or the flat form
`[x1, y1, x2, y2]`; `line.get('bbox', [])` with no box is the empty
flat list. -/
inductive PyBBox where
  | nested (pts : List (List ℚ))
  | flat (coords : List ℚ)
deriving Repr, DecidableEq

/-- An OCR line dict as received by `separate_columns`
(`line.get('text', '')` / `line.get('bbox', [])`). -/
structure PyOcrLine where
  text : String := ""
  bbox : PyBBox := .flat []
deriving Repr, DecidableEq

/-- Python truthiness of the bbox value (`not bbox`). -/
def PyBBox.isFalsy : PyBBox → Bool
  | .nested pts => pts.isEmpty
  | .flat coords => coords.isEmpty

/-- The x-coordinate extraction of `separate_columns` (with the
`except (IndexError, TypeError): x_coord = 0` fallback).  Only called
after the falsiness check, so the outer list is non-empty. -/
def PyBBox.xCoord : PyBBox → ℚ
  | .nested pts => ((pts.headD []).headD 0)
  | .flat coords => coords.headD 0

/-- The y-coordinate extraction of `separate_columns` (same fallback). -/
def PyBBox.yCoord : PyBBox → ℚ
  | .nested pts => ((pts.headD []).getD 1 0)
  | .flat coords => coords.getD 1 0

/-- The line-partition loop of `separate_columns`: lines with a falsy
text or bbox are skipped; the rest go left when `x < threshold`, else
right, keeping input order as `(y, text)` pairs. -/
def splitColumnLines (threshold : ℚ) : List PyOcrLine → List (ℚ × String) × List (ℚ × String)
  | [] => ([], [])
  | l :: ls =>
      let rest := splitColumnLines threshold ls
      if l.bbox.isFalsy || l.text = "" then rest
      else if l.bbox.xCoord < threshold then
        ((l.bbox.yCoord, l.text) :: rest.1, rest.2)
      else
        (rest.1, (l.bbox.yCoord, l.text) :: rest.2)

/-- `separate_columns`, up to the final newline-joins: the two columns
as lists of texts, each stably sorted by the y-coordinate
(`.sort(key=lambda x: x[0])`). -/
def separateColumns (lines : List PyOcrLine) (threshold : ℚ) :
    List String × List String :=
  let cols := splitColumnLines threshold lines
  ((cols.1.mergeSort (fun a b => decide (a.1 ≤ b.1))).map (·.2),
   (cols.2.mergeSort (fun a b => decide (a.1 ≤ b.1))).map (·.2))

/-- `separate_columns` proper: the joined column texts. -/
def separateColumnsJoined (lines : List PyOcrLine) (threshold : ℚ) :
    String × String :=
  let cols := separateColumns lines threshold
  (joinSep "\n" cols.1, joinSep "\n" cols.2)

/-! ## `ocr_extraction.py`: fuzzy section-header matching

`difflib.SequenceMatcher(None, a, b).ratio()` is kept as an explicit
function parameter `sim`; every theorem about the matcher quantifies
over it, so the results hold for the real similarity function. -/

/-- `SECTION_PATTERNS` (dict in insertion order). -/
def SECTION_PATTERNS : List (String × List String) :=
  [("work_experience",
    ["work experience", "work history", "employment history", "experience", "employment"]),
   ("education",
    ["education", "academic background", "qualifications", "academic"]),
   ("skills",
    ["skills", "technical skills", "competencies", "technologies", "expertise"])]

/-- The reject list `degree_prefixes` of `fuzzy_match`. -/
def degreeStarts : List String :=
  ["bachelor", "master", "doctor", "associate", "diploma", "certificate",
   "b.s.", "m.s.", "ph.d."]

/-- `normalize_text`: lowercase and collapse whitespace runs to single
spaces. -/
def normalizeText (s : String) : String :=
  joinSep " " (pySplitWs (pyLower s))

/-- Remove spaces (`.replace(' ', '')`; after `normalize_text` the only
whitespace left is single spaces). -/
def despace (s : String) : String :=
  ⟨s.data.filter (· ≠ ' ')⟩

/-- `fuzzy_match`. -/
def fuzzyMatch (sim : String → String → ℚ) (text pat : String)
    (threshold : ℚ) (isSectionHdr : Bool) : Bool :=
  let tn := normalizeText text
  let pn := normalizeText pat
  if isSectionHdr && decide (pn.length * 3 < tn.length) then false
  else if isSectionHdr && degreeStarts.any (fun p => pyStartsWith tn p) then false
  else if isSectionHdr && strContains tn pn && !(pyStartsWith tn (pyTake pn 4)) then false
  else if strContains tn pn then
    -- pattern contained: for headers it must also be >60% of the line
    if isSectionHdr && decide ((pn.length : ℚ) ≤ (tn.length : ℚ) * (6/10)) then false
    else true
  else if strContains (despace tn) (despace pn) then true
  else decide (threshold ≤ sim tn pn)

/-- The header decision taken for one (already stripped) line inside
`find_section_headers`: the first section, in `SECTION_PATTERNS`
order, one of whose patterns fuzzy-matches with threshold 0.75 in
section-header mode. -/
def isHeaderLine (sim : String → String → ℚ) (line : String) : Option String :=
  SECTION_PATTERNS.findSome? (fun sp =>
    if sp.2.any (fun pat => fuzzyMatch sim line pat (3/4) true) then some sp.1
    else none)

/-- Character offset of the start of line `i` in the text
(`sum(len(l) + 1 for l in lines[:i])`). -/
def offsetUpTo (lines : List String) (i : ℕ) : ℕ :=
  ((lines.take i).map (fun l => l.length + 1)).sum

/-- Scan state of `find_section_headers`. -/
structure SectionScanState where
  sections : List (String × ℕ × ℕ) := []
  currentSec : Option String := none
  secStart : ℕ := 0
deriving Repr

/-- The per-line step of `find_section_headers`. -/
def sectionScanStep (sim : String → String → ℚ) (lines : List String)
    (st : SectionScanState) (p : ℕ × String) : SectionScanState :=
  let stripped := pyStrip p.2
  if stripped = "" then st
  else
    match isHeaderLine sim stripped with
    | none => st
    | some name =>
        let st1 :=
          match st.currentSec with
          | some cur =>
              { st with sections :=
                  insertOverwrite st.sections cur (st.secStart, offsetUpTo lines p.1) }
          | none => st
        { st1 with currentSec := some name, secStart := offsetUpTo lines (p.1 + 1) }

/-- `find_section_headers`: maps each detected canonical section name
to the `(start, end)` character span of its content. -/
def findSectionHeaders (sim : String → String → ℚ) (text : String) :
    List (String × ℕ × ℕ) :=
  let lines := pySplitChar '\n' text
  let st := lines.enum.foldl (sectionScanStep sim lines) {}
  match st.currentSec with
  | some cur => insertOverwrite st.sections cur (st.secStart, text.length)
  | none => st.sections

/-! ## `models/ocr.py`: `_detect_tables_from_lines` -/

/-- An OCR line dict as received by `_detect_tables_from_lines`: a
text and an optional polygon bbox (`'bbox' in line`); the polygon is a
list of `(x, y)` points. -/
structure TableLine where
  text : String := ""
  bbox : Option (List (ℚ × ℚ)) := none
deriving Repr, DecidableEq

/-- The 20-px y-bucket of a line: `round(y_center / 20) * 20` with
`y_center = (bbox[0][1] + bbox[2][1]) / 2`. -/
def yBucketOf (pts : List (ℚ × ℚ)) : ℤ :=
  let yCenter := ((pts.getD 0 (0, 0)).2 + (pts.getD 2 (0, 0)).2) / 2
  pyRound (yCenter / 20) * 20

/-- The left-x sort key used inside a bucket
(`x['bbox'][0][0] if 'bbox' in x else 0`). -/
def tableSortX (l : TableLine) : ℚ :=
  match l.bbox with
  | some pts => (pts.getD 0 (0, 0)).1
  | none => 0

/-- Append a line to its y-bucket group, dict-style: an existing
bucket keeps its position, a new bucket is appended. -/
def appendToBucket (gs : List (ℤ × List TableLine)) (b : ℤ) (l : TableLine) :
    List (ℤ × List TableLine) :=
  match gs with
  | [] => [(b, [l])]
  | (b', g) :: rest =>
      if b' = b then (b', g ++ [l]) :: rest
      else (b', g) :: appendToBucket rest b l

/-- Whether a line participates in the grouping
(`'bbox' in line and len(line['bbox']) >= 4`). -/
def tableLineValid (l : TableLine) : Bool :=
  match l.bbox with
  | some pts => decide (4 ≤ pts.length)
  | none => false

/-- The y-bucket of a valid line. -/
def tableLineBucket (l : TableLine) : ℤ :=
  match l.bbox with
  | some pts => yBucketOf pts
  | none => 0

/-- A detected table. -/
structure PyTable where
  rows : List (List String)
  row_count : ℕ
  col_count : ℕ
deriving Repr, DecidableEq

/-- One iteration of the grouping loop of
`_detect_tables_from_lines`. -/
def tableGroupStep (gs : List (ℤ × List TableLine)) (l : TableLine) :
    List (ℤ × List TableLine) :=
  if tableLineValid l then appendToBucket gs (tableLineBucket l) l else gs

/-- The `y_groups` dict after the grouping loop. -/
def yGroupsOf (lines : List TableLine) : List (ℤ × List TableLine) :=
  lines.foldl tableGroupStep []

/-- The table row harvested from one y-bucket: the x-sorted texts,
when the bucket holds at least two lines. -/
def tableRowOf (gs : List (ℤ × List TableLine)) (y : ℤ) : Option (List String) :=
  match gs.lookup y with
  | some g =>
      if 2 ≤ g.length then
        some ((g.mergeSort (fun a b => decide (tableSortX a ≤ tableSortX b))).map (·.text))
      else none
  | none => none

/-- `OCRProcessor._detect_tables_from_lines`. -/
def detectTablesFromLines (lines : List TableLine) : List PyTable :=
  if lines.length < 3 then []
  else
    let yGroups := yGroupsOf lines
    let sortedKeys := (yGroups.map Prod.fst).mergeSort (fun a b => decide (a ≤ b))
    let tableRows := sortedKeys.filterMap (tableRowOf yGroups)
    if 2 ≤ tableRows.length then
      [⟨tableRows, tableRows.length,
        (tableRows.map List.length).foldl max 0⟩]
    else []

/-! ## `ocr_extraction.py`: tier-1 extraction — regular expressions

The email and phone patterns are only ever used for their truthiness
(`if email_match:`), so they are embedded through a small regular
expression language with an existence-of-a-match search, which agrees
with the truthiness of `re.search`.  All character classes are the
ASCII classes of the source patterns. -/

/-- ASCII uppercase letter (`[A-Z]`). -/
def isUpperAsc (c : Char) : Bool := 'A' ≤ c && c ≤ 'Z'

/-- ASCII lowercase letter (`[a-z]`). -/
def isLowerAsc (c : Char) : Bool := 'a' ≤ c && c ≤ 'z'

/-- ASCII letter (`[A-Za-z]`). -/
def isAlphaAsc (c : Char) : Bool := isUpperAsc c || isLowerAsc c

/-- ASCII digit (`\d` in the ASCII model). -/
def isDigitAsc (c : Char) : Bool := '0' ≤ c && c ≤ '9'

/-- `\w` (ASCII model). -/
def isWordChar (c : Char) : Bool := isAlphaAsc c || isDigitAsc c || c = '_'

/-- Regular expressions over character predicates.  Unbounded
repetition only occurs over single character classes in the source
patterns, so a dedicated `starCh` suffices. -/
inductive RE where
  | eps
  | ch (p : Char → Bool)
  | cat (a b : RE)
  | alt (a b : RE)
  | starCh (p : Char → Bool)

/-- `r?`. -/
def RE.opt (r : RE) : RE := .alt r .eps

/-- `[p]+`. -/
def RE.plusCh (p : Char → Bool) : RE := .cat (.ch p) (.starCh p)

/-- All suffixes obtained by consuming a (possibly empty) run of
`p`-characters. -/
def runSuffixes (p : Char → Bool) : List Char → List (List Char)
  | [] => [[]]
  | c :: rest => (c :: rest) :: (if p c then runSuffixes p rest else [])

/-- All suffixes left after matching some prefix of `s` against `r`. -/
def RE.consume : RE → List Char → List (List Char)
  | .eps, s => [s]
  | .ch _, [] => []
  | .ch p, c :: rest => if p c then [rest] else []
  | .starCh p, s => runSuffixes p s
  | .alt a b, s => a.consume s ++ b.consume s
  | .cat a b, s => (a.consume s).flatMap b.consume

/-- Truthiness of `re.search(r, s)`: some substring of `s` matches. -/
def reSearchExists (r : RE) (s : String) : Bool :=
  s.data.tails.any (fun t => !(r.consume t).isEmpty)

/-- The email pattern
`[a-zA-Z0-9._%+-]+@[a-zA-Z0-9.-]+\.[a-zA-Z]{2,}`. -/
def emailRE : RE :=
  let localChar := fun c =>
    isAlphaAsc c || isDigitAsc c || c = '.' || c = '_' || c = '%' || c = '+' || c = '-'
  let domainChar := fun c => isAlphaAsc c || isDigitAsc c || c = '.' || c = '-'
  .cat (.plusCh localChar)
    (.cat (.ch (· = '@'))
      (.cat (.plusCh domainChar)
        (.cat (.ch (· = '.'))
          (.cat (.ch isAlphaAsc) (.plusCh isAlphaAsc)))))

/-- `[-.\s]` of the phone pattern. -/
def phoneSep (c : Char) : Bool := c = '-' || c = '.' || pyIsSpace c

/-- `\d{m, m+k}` as a regular expression. -/
def digitRange (k : ℕ) (m : ℕ) : RE :=
  match m with
  | 0 => (List.range k).foldl (fun r _ => .cat r (RE.opt (.ch isDigitAsc))) .eps
  | m' + 1 => .cat (.ch isDigitAsc) (digitRange k m')

/-- The phone pattern
`(?:[\+]?[1-9]\d{0,2}[-.\s]?)?\(?\d{2,4}\)?[-.\s]?\d{2,4}[-.\s]?\d{2,6}`. -/
def phoneRE : RE :=
  let ccPart : RE :=
    .cat (RE.opt (.ch (· = '+')))
      (.cat (.ch (fun c => '1' ≤ c && c ≤ '9'))
        (.cat (digitRange 2 0) (RE.opt (.ch phoneSep))))
  .cat (RE.opt ccPart)
    (.cat (RE.opt (.ch (· = '(')))
      (.cat (digitRange 2 2)
        (.cat (RE.opt (.ch (· = ')')))
          (.cat (RE.opt (.ch phoneSep))
            (.cat (digitRange 2 2)
              (.cat (RE.opt (.ch phoneSep)) (digitRange 4 2)))))))

/-! ## `ocr_extraction.py`: tier-1 extraction — the location patterns

The location patterns feed their matched text into further logic
(an emptiness check after `.strip()`, and a technology-word filter),
so they are embedded as direct matchers that follow the source
pattern structure with Python backtracking preference:
leftmost start position, greedy quantifiers high-first, lazy
quantifiers low-first, alternatives in written order.  Where a
greedy quantifier is followed by a character its class excludes,
the maximal run is forced and is taken directly. -/

/-- `[A-Za-z\s,]`, the class of the labelled-location capture group. -/
def locGroupChar (c : Char) : Bool := isAlphaAsc c || pyIsSpace c || c = ','

/-- Case-insensitive literal prefix strip (for the
`(?:Location|Address|City|Based in)` alternatives under
`re.IGNORECASE`); returns the rest on success. -/
def ciDropLabel : List Char → List Char → Option (List Char)
  | [], cs => some cs
  | _ :: _, [] => none
  | l :: ls, c :: cs => if l.toLower = c.toLower then ciDropLabel ls cs else none

/-- The lazy group `([A-Za-z\s,]+?)` followed by `(?:\n|$)`, after its
first (mandatory) character has been consumed into `acc`: at each
point the engine first tries to finish (next char `\n` or end of
input), and only then extends the group by one class character. -/
def lazyLocGroup (acc : List Char) : List Char → Option (List Char)
  | [] => some acc.reverse
  | c :: r =>
      if c = '\n' then some acc.reverse
      else if locGroupChar c then lazyLocGroup (c :: acc) r
      else none

/-- Entry to the lazy group: it must consume at least one class
character before the first finish test. -/
def lazyLocStart : List Char → Option (List Char)
  | [] => none
  | c :: r => if locGroupChar c then lazyLocGroup [c] r else none

/-- Greedy backtracking over `[:\s]+`: try consuming `m` separator
characters first, down to 1. -/
def greedySepTry (rest : List Char) : ℕ → Option (List Char)
  | 0 => none
  | k + 1 =>
      match lazyLocStart (rest.drop (k + 1)) with
      | some g => some g
      | none => greedySepTry rest k

/-- Match of the labelled-location pattern
`(?:Location|Address|City|Based in)[:\s]+([A-Za-z\s,]+?)(?:\n|$)`
anchored at the current position; returns the capture group. -/
def labeledLocAt (cs : List Char) : Option (List Char) :=
  ["Location", "Address", "City", "Based in"].findSome? (fun lab =>
    match ciDropLabel lab.data cs with
    | none => none
    | some rest =>
        greedySepTry rest ((rest.takeWhile (fun c => c = ':' || pyIsSpace c)).length))

/-- `re.search` over start positions, leftmost first. -/
def pyScan (f : List Char → Option α) (s : String) : Option α :=
  s.data.tails.findSome? f

/-- The capture group of the first labelled-location match in the
header text, if any. -/
def labeledLocGroup? (header : String) : Option String :=
  (pyScan labeledLocAt header).map (fun g => ⟨g⟩)

/-- The ordered country alternatives of the city pattern. -/
def countryAlts : List String :=
  ["Turkey", "Germany", "USA", "UK", "France", "Spain", "Italy",
   "Netherlands", "Belgium", "Switzerland", "Austria", "Canada",
   "Australia", "India", "China", "Japan"]

/-- `\b` after the country group: end of input or a non-word
character. -/
def atBoundary : List Char → Bool
  | [] => true
  | c :: _ => !isWordChar c

/-- The country part `(Turkey|...|Japan|[A-Z]{2})\b`, with the listed
literals tried in order (case-sensitively) before the two-uppercase
fallback; returns the consumed characters. -/
def countryAt (cs : List Char) : Option (List Char) :=
  match countryAlts.findSome? (fun ctry =>
      if ctry.data.isPrefixOf cs && atBoundary (cs.drop ctry.length) then
        some ctry.data
      else none) with
  | some v => some v
  | none =>
      match cs with
      | c1 :: c2 :: r =>
          if isUpperAsc c1 && isUpperAsc c2 && atBoundary r then some [c1, c2]
          else none
      | _ => none

/-- After the comma of the city pattern: `\s*` (forced maximal, since
the next character must be uppercase) then the country group. -/
def cityTail (afterComma : List Char) : Option (List Char) :=
  let ws := afterComma.takeWhile pyIsSpace
  (countryAt (afterComma.drop ws.length)).map (fun ctry => ws ++ ctry)

/-- One capitalised word `[A-Z][a-z]+` at the head; returns
`(word, rest)`.  The `[a-z]+` run is forced maximal: the next pattern
characters (`\s`, `,`) exclude lowercase letters. -/
def capWordAt : List Char → Option (List Char × List Char)
  | [] => none
  | c :: rest =>
      if isUpperAsc c then
        let run := rest.takeWhile isLowerAsc
        if run.isEmpty then none
        else some (c :: run, rest.drop run.length)
      else none

/-- Match of the city pattern
`([A-Z][a-z]+(?:\s+[A-Z][a-z]+)?),\s*(Country…|[A-Z]{2})\b` anchored
at the current position; returns the whole matched text.  The
optional second word is tried first (greedy), with fallback to the
one-word form. -/
def cityPatternAt (cs : List Char) : Option (List Char) :=
  match capWordAt cs with
  | none => none
  | some (w1, rest1) =>
      let twoWord : Option (List Char) :=
        let ws := rest1.takeWhile pyIsSpace
        if ws.isEmpty then none
        else
          match capWordAt (rest1.drop ws.length) with
          | none => none
          | some (w2, rest2) =>
              match rest2 with
              | ',' :: r => (cityTail r).map (fun t => w1 ++ ws ++ w2 ++ [','] ++ t)
              | _ => none
      match twoWord with
      | some m => some m
      | none =>
          match rest1 with
          | ',' :: r => (cityTail r).map (fun t => w1 ++ [','] ++ t)
          | _ => none

/-- The whole text of the first city-pattern match in the header
text, if any. -/
def cityPatternMatch? (header : String) : Option String :=
  (pyScan cityPatternAt header).map (fun g => ⟨g⟩)

/-! ## `ocr_extraction.py`: tier-1 extraction and the
`/extract-structured` route -/

/-- `FieldExtraction` (value, confidence, source). -/
structure FieldExtraction where
  value : Option String := none
  confidence : ℚ
  source : Option String := none
deriving Repr, DecidableEq

/-- The tier-1 dict; only these five keys are ever inserted, and
`firstName` / `lastName` are always inserted together. -/
structure Tier1 where
  firstName : Option FieldExtraction := none
  lastName : Option FieldExtraction := none
  email : Option FieldExtraction := none
  phone : Option FieldExtraction := none
  location : Option FieldExtraction := none
deriving Repr, DecidableEq

/-- Python truthiness of the tier-1 dict (`not tier1`). -/
def Tier1.isEmptyDict (t : Tier1) : Bool :=
  t.firstName.isNone && t.lastName.isNone && t.email.isNone &&
  t.phone.isNone && t.location.isNone

/-- The technology denylist used by the location heuristic. -/
def techWords : List String :=
  ["selenium", "gauge", "cypress", "python", "javascript", "react", "angular",
   "java", "nodejs", "docker", "kubernetes", "jenkins", "git", "jira", "postman",
   "appium", "playwright", "testng", "junit", "maven", "gradle", "spring"]

/-- The name scan of `extract_tier1_personal_info`: the first of the
first five lines whose stripped form has at least two
whitespace-separated words; returns `(index, words)`. -/
def nameLineScan (lines : List String) : Option (ℕ × List String) :=
  (lines.take 5).enum.findSome? (fun p =>
    let stripped := pyStrip p.2
    let ws := pySplitWs stripped
    if stripped ≠ "" && 2 ≤ ws.length then some (p.1, ws) else none)

/-- The location part of `extract_tier1_personal_info`: labelled form
preferred; else city form filtered against the technology denylist.
Returns `(value, confidence)`. -/
def locationScan (header : String) : Option (String × ℚ) :=
  match labeledLocGroup? header with
  | some g =>
      let v := pyStrip g
      if v ≠ "" then some (v, 90) else none
  | none =>
      match cityPatternMatch? header with
      | some m =>
          let ws := (pySplitWs ⟨m.data.map (fun c => if c = ',' then ' ' else c)⟩).map pyLower
          if ws.all (fun w => w ∉ techWords) then some (m, 85) else none
      | none => none

/-- `extract_tier1_personal_info`.  (The email and phone fields carry
`value = email_match.group()` / `phone_match.group().strip()` in the
source; no consumer of the embedded model reads those two values, so
they are not reconstructed here — presence, confidence and source
are faithful.) -/
def extractTier1 (text : String) : Tier1 :=
  let lines := pySplitChar '\n' (pyStrip text)
  let t0 : Tier1 :=
    match nameLineScan lines with
    | some (i, ws) =>
        { firstName := some ⟨ws.head?, 98, some ("line_" ++ toString (i + 1))⟩,
          lastName := some ⟨ws.getLast?, 95, some ("line_" ++ toString (i + 1))⟩ }
    | none => {}
  let t1 :=
    if reSearchExists emailRE text then
      { t0 with email := some ⟨none, 95, some "regex_match"⟩ }
    else t0
  let t2 :=
    if reSearchExists phoneRE text then
      { t1 with phone := some ⟨none, 88, some "regex_match"⟩ }
    else t1
  let header := joinSep "\n" (lines.take 15)
  match locationScan header with
  | some (v, conf) =>
      { t2 with location := some ⟨some v, conf, some "regex_match"⟩ }
  | none => t2

/-- A confidence-bearing parsed field (`{"value": .., "confidence": ..}`). -/
structure ConfField where
  value : String := ""
  confidence : ℚ := 0
deriving Repr, DecidableEq

/-- One parsed work-history entry. -/
structure JobEntry where
  jobTitle : ConfField := {}
  company : ConfField := {}
  startDate : ConfField := {}
  endDate : ConfField := {}
  responsibilities : ConfField := {}
deriving Repr, DecidableEq

/-- One parsed education entry. -/
structure EduEntry where
  degree : ConfField := {}
  fieldOfStudy : ConfField := {}
  institution : ConfField := {}
  graduationYear : ConfField := {}
deriving Repr, DecidableEq

/-- One parsed skill tag. -/
structure SkillEntry where
  name : ConfField := {}
  matchedSkillId : Option String := none
deriving Repr, DecidableEq

/-- A tier-2 result (`workHistory`, `education`, `skills`). -/
structure Tier2 where
  workHistory : List JobEntry := []
  education : List EduEntry := []
  skills : List SkillEntry := []
deriving Repr, DecidableEq

/-- The constant tier-3 payload of the route. -/
structure Tier3 where
  references_value : Option String := none
  references_confidence : ℚ := 0
  certifications : List String := []
deriving Repr, DecidableEq

/-- `extract_raw_sections` output shape. -/
structure RawSections where
  experience_section : Option String := none
  education_section : Option String := none
deriving Repr, DecidableEq

/-- `ExtractStructuredRequest`. -/
structure ExtractRequest where
  text : String
  lines : Option (List PyOcrLine) := none
  language : String := "en"
  extraction_mode : String := "tiered"
deriving Repr, DecidableEq

/-- `ExtractStructuredResponse`. -/
structure ExtractResponse where
  overall_confidence : ℚ
  tier1 : Tier1
  tier2 : Tier2
  tier3 : Tier3
  raw_sections : RawSections
deriving Repr, DecidableEq

/-- The mean tier-1 confidence (`sum / len` over the dict values,
0 when there are none). -/
def overallConfidence (t : Tier1) : ℚ :=
  let confs := ([t.firstName, t.lastName, t.email, t.phone, t.location].filterMap id).map
    (·.confidence)
  if confs.isEmpty then 0 else confs.sum / confs.length

/-- `extract_structured_data` (the `/api/ocr/extract-structured`
route body).  The tier-2 parsers and `extract_raw_sections` are
passed as function parameters: they are total string transformations
whose output never influences the success/failure outcome; theorems
quantify over them.  The `Except` error payload is the HTTP status
code of the raised `HTTPException` (422). -/
def extractStructured (tier2Full : String → Tier2)
    (tier2Cols : String → String → Tier2)
    (rawSecs : String → RawSections)
    (req : ExtractRequest) : Except ℕ ExtractResponse :=
  let tier1 := extractTier1 req.text
  let tier2 :=
    match req.lines with
    | some ls =>
        if ls.isEmpty then tier2Full req.text
        else
          let cols := separateColumnsJoined ls 500
          let t := tier2Cols cols.1 cols.2
          if t.workHistory.isEmpty && t.education.isEmpty && t.skills.isEmpty then
            tier2Full req.text
          else t
    | none => tier2Full req.text
  let tier3 : Tier3 := {}
  let raw := rawSecs req.text
  if tier1.isEmptyDict then .error 422
  else
    .ok ⟨overallConfidence tier1, tier1, tier2, tier3, raw⟩

/-! ## Concrete example inputs and outputs used by closed theorems -/

/-- A skill criterion whose `points_possible` truncates to zero
(`int(1 * 0.4) = 0`). -/
def exZeroMaxCrit : ScoringCriterion := ⟨"skill", "python", 1, false, 2/5, none, none, none⟩

/-- A criterion of unknown type (evaluates to unmatched, 0 points). -/
def exCustomCrit : ScoringCriterion := ⟨"custom", "x", 1, false, 1, none, none, none⟩

/-- `calculate_score({}, [exCustomCrit])`. -/
def exCustomRes : ScoringResult :=
  ⟨0, 1, 0, [],
   [⟨"custom", "x", 1, 0, false, false, some "Unknown criteria type: custom"⟩],
   [], false, none⟩

/-- A skill criterion with fractional weighted points (`3 * 0.5`). -/
def exTruncCrit : ScoringCriterion := ⟨"skill", "python", 3, false, 1/2, none, none, none⟩

/-- A candidate having the `python` skill. -/
def exTruncCand : CandidateData := { skills := ["python"] }

/-- A required skill criterion. -/
def exReqCrit : ScoringCriterion := ⟨"skill", "python", 10, true, 1, none, none, none⟩

/-- `calculate_score({}, [exReqCrit])`. -/
def exReqRes : ScoringResult :=
  ⟨0, 10, 0, [],
   [⟨"skill", "python", 10, 0, true, false, some "Skill python not found"⟩],
   [⟨"skill", "python", 10, 0, true, false, some "Skill python not found"⟩],
   true, some "Missing required criteria: python"⟩

/-- An experience criterion requiring 2 years. -/
def exPartialCrit : ScoringCriterion := ⟨"experience", "2", 10, false, 1, none, none, none⟩

/-- A candidate with 1 year of experience. -/
def exPartialCand : CandidateData := { totalExperienceYears := some 1 }

/-- `calculate_score(exPartialCand, [exPartialCrit])`: the unmatched
experience criterion carries 5 partial points, excluded from the
total. -/
def exPartialRes : ScoringResult :=
  ⟨0, 10, 0, [],
   [⟨"experience", "2", 10, 5, false, false, some "below requirement (partial credit)"⟩],
   [], false, none⟩

/-- `evaluate_criterion(exPartialCrit, years=1)`. -/
def exPartialOut : EvalOut := ⟨false, 5, some "below requirement (partial credit)"⟩

/-- An experience criterion with per-unit points 0.5 per year. -/
def exPerUnitCrit : ScoringCriterion :=
  ⟨"experience", "1", 10, false, 1, none, some (1/2), none⟩

/-- Two built match results with combined scores 54 and 62 (spec
scenario 6), pre-sort. -/
def exMatches : List MatchResult :=
  [⟨"c1", "j", 3/5, 0, 0, 54, 0, [], [], [], false⟩,
   ⟨"c2", "j", 4/5, 0, 0, 62, 0, [], [], [], false⟩]

/-- An OCR line dict carrying text but an empty bbox
(`line.get('bbox', []) == []`). -/
def exDropLine : PyOcrLine := ⟨"a", .flat []⟩

/-- The lines that survive the skip test of `separate_columns`
(`if not bbox or not text: continue`). -/
def keptLine (l : PyOcrLine) : Bool := !(l.bbox.isFalsy || l.text = "")

/-- Modelled from the claim wording of the table detector: a y-center
bucket rounded to the nearest 25 px (the source uses 20 px). -/
def claimBucket25 (l : TableLine) : ℤ :=
  match l.bbox with
  | some pts =>
      pyRound ((((pts.getD 0 (0, 0)).2 + (pts.getD 2 (0, 0)).2) / 2) / 25) * 25
  | none => 0

/-- Four OCR lines: two with y-center 30 and 40 (same 20-px bucket
40, different 25-px buckets 25 and 50) and two with y-center 1000. -/
def exTableLines : List TableLine :=
  [⟨"a", some [(0, 20), (50, 20), (50, 40), (0, 40)]⟩,
   ⟨"b", some [(100, 30), (150, 30), (150, 50), (100, 50)]⟩,
   ⟨"c", some [(0, 990), (50, 990), (50, 1010), (0, 1010)]⟩,
   ⟨"d", some [(100, 990), (150, 990), (150, 1010), (100, 1010)]⟩]

/-- The valid lines of a given y-bucket, in input order. -/
def tableFiber (lines : List TableLine) (b : ℤ) : List TableLine :=
  (lines.filter tableLineValid).filter (fun l => decide (tableLineBucket l = b))

/-! ## Helper lemmas: the `calculate_score` loop -/

theorem criterionResultOf_shape {c : ScoringCriterion} {sk : List String}
    {lg : List (String × String)} {ct : List String} {y : ℚ} {e : String}
    {cr : CriterionResult}
    (h : criterionResultOf c sk lg ct y e = Except.ok cr) :
    cr.points_possible = pyInt ((c.points : ℚ) * c.weight) ∧
    cr.is_required = c.is_required := by
  unfold criterionResultOf at h
  cases hev : evaluateCriterion c sk lg ct y e with
  | error e' => rw [hev] at h; cases h
  | ok r => rw [hev] at h; cases h; exact ⟨rfl, rfl⟩

theorem criterionStep_ok {sk : List String} {lg : List (String × String)}
    {ct : List String} {y : ℚ} {e : String} {st : ScoreState}
    {c : ScoringCriterion} {st' : ScoreState}
    (h : criterionStep sk lg ct y e st c = Except.ok st') :
    ∃ cr, criterionResultOf c sk lg ct y e = Except.ok cr ∧
      st' = (if cr.matched then
              { st with maxPts := st.maxPts + cr.points_possible,
                        total := st.total + cr.points_earned,
                        matched := st.matched ++ [cr] }
            else
              { st with maxPts := st.maxPts + cr.points_possible,
                        missing := st.missing ++ [cr],
                        reqMissing := if c.is_required then st.reqMissing ++ [cr]
                                      else st.reqMissing }) := by
  unfold criterionStep at h
  cases hcr : criterionResultOf c sk lg ct y e with
  | error e' => rw [hcr] at h; cases h
  | ok cr =>
      rw [hcr] at h
      dsimp only at h
      refine ⟨cr, rfl, ?_⟩
      by_cases hm : cr.matched
      · rw [if_pos hm] at h; rw [if_pos hm]; cases h; rfl
      · rw [if_neg hm] at h; rw [if_neg hm]; cases h; rfl

theorem scoreLoop_maxPts {sk : List String} {lg : List (String × String)}
    {ct : List String} {y : ℚ} {e : String} :
    ∀ (crits : List ScoringCriterion) (st0 st : ScoreState),
      scoreLoop sk lg ct y e st0 crits = Except.ok st →
      st.maxPts = st0.maxPts +
        (crits.map (fun c => pyInt ((c.points : ℚ) * c.weight))).sum
  | [], st0, st, h => by cases h; simp
  | c :: rest, st0, st, h => by
      unfold scoreLoop at h
      cases hstep : criterionStep sk lg ct y e st0 c with
      | error e' => rw [hstep] at h; cases h
      | ok st1 =>
          rw [hstep] at h
          obtain ⟨cr, hcr, hst1⟩ := criterionStep_ok hstep
          have hpp := (criterionResultOf_shape hcr).1
          have ih := scoreLoop_maxPts rest st1 st h
          have h1 : st1.maxPts = st0.maxPts + cr.points_possible := by
            by_cases hm : cr.matched
            · rw [hst1, if_pos hm]
            · rw [hst1, if_neg hm]
          rw [ih, h1, hpp, List.map_cons, List.sum_cons]
          ring

theorem scoreLoop_inv {sk : List String} {lg : List (String × String)}
    {ct : List String} {y : ℚ} {e : String} :
    ∀ (crits : List ScoringCriterion) (st0 st : ScoreState),
      scoreLoop sk lg ct y e st0 crits = Except.ok st →
      st0.total = (st0.matched.map (·.points_earned)).sum →
      st0.reqMissing = st0.missing.filter (·.is_required) →
      st.total = (st.matched.map (·.points_earned)).sum ∧
      st.reqMissing = st.missing.filter (·.is_required)
  | [], st0, st, h, h1, h2 => by cases h; exact ⟨h1, h2⟩
  | c :: rest, st0, st, h, h1, h2 => by
      unfold scoreLoop at h
      cases hstep : criterionStep sk lg ct y e st0 c with
      | error e' => rw [hstep] at h; cases h
      | ok st1 =>
          rw [hstep] at h
          obtain ⟨cr, hcr, hst1⟩ := criterionStep_ok hstep
          have hreq := (criterionResultOf_shape hcr).2
          by_cases hm : cr.matched
      -- matched: total and matched grow together, missing untouched
          · rw [if_pos hm] at hst1
            refine scoreLoop_inv rest st1 st h ?_ ?_
            · rw [hst1]; simp [h1]
            · rw [hst1]; simpa using h2
      -- unmatched: total and matched untouched, missing grows
          · rw [if_neg hm] at hst1
            refine scoreLoop_inv rest st1 st h ?_ ?_
            · rw [hst1]; simpa using h1
            · rw [hst1]
              simp only [List.filter_append, h2]
              by_cases hr : c.is_required
              · rw [if_pos hr]
                simp [List.filter, hreq, hr]
              · rw [if_neg hr]
                simp only [Bool.not_eq_true] at hr
                simp [List.filter, hreq, hr]

/-- Destructuring of a successful non-trivial `calculate_score` call. -/
theorem calculateScore_ok_elim {cd : CandidateData}
    {criteria : List ScoringCriterion} {r : ScoringResult}
    (hne : criteria ≠ [])
    (h : calculateScore cd criteria = Except.ok r) :
    ∃ st, scoreLoop (normalizeSet cd.skills) (normalizeDict cd.languages)
        (normalizeSet cd.certifications) (cd.totalExperienceYears.getD 0)
        (normalizeString cd.educationLevel) {} criteria = Except.ok st ∧
      r = ⟨st.total, st.maxPts,
           pyRound2 (if 0 < st.maxPts then (st.total : ℚ) / (st.maxPts : ℚ) * 100 else 0),
           st.matched, st.missing, st.reqMissing,
           !st.reqMissing.isEmpty,
           if !st.reqMissing.isEmpty then
             some ("Missing required criteria: " ++
                   joinSep ", "
                     ((st.reqMissing.take 3).map (·.criteria_value)))
           else none⟩ := by
  unfold calculateScore at h
  rw [if_neg hne] at h
  cases hloop : scoreLoop (normalizeSet cd.skills) (normalizeDict cd.languages)
      (normalizeSet cd.certifications) (cd.totalExperienceYears.getD 0)
      (normalizeString cd.educationLevel) {} criteria with
  | error e => rw [hloop] at h; cases h
  | ok st => rw [hloop] at h; cases h; exact ⟨st, rfl, rfl⟩

/-! ## Claim C1: the percentage formula of `calculate_score` -/

unseal Rat.mul Rat.add Rat.sub Rat.inv in
/-- C1 (amended): for every candidate and criteria list, a successful
`calculate_score` yields `percentage = round(100 * total_points /
max_points, 2)` when `max_points > 0`; `percentage = 100` when the
criteria list is empty; and `percentage = 0` — not 100 — when the
criteria list is non-empty but `max_points = 0`. -/
theorem calculateScore_percentage_cases (cd : CandidateData)
    (criteria : List ScoringCriterion) (r : ScoringResult)
    (h : calculateScore cd criteria = Except.ok r) :
    (criteria = [] → r.percentage = 100) ∧
    (0 < r.max_points →
      r.percentage = pyRound2 (100 * (r.total_points : ℚ) / (r.max_points : ℚ))) ∧
    (criteria ≠ [] → r.max_points = 0 → r.percentage = 0) := by
  by_cases hc : criteria = []
  · unfold calculateScore at h
    rw [if_pos hc] at h
    cases h
    refine ⟨fun _ => rfl, fun h0 => absurd h0 (by norm_num), fun hne => absurd hc hne⟩
  · obtain ⟨st, hloop, hr⟩ := calculateScore_ok_elim hc h
    subst hr
    refine ⟨fun he => absurd he hc, fun h0 => ?_, fun _ hmax => ?_⟩
    · have h0' : 0 < st.maxPts := h0
      show pyRound2 (if 0 < st.maxPts then (st.total : ℚ) / (st.maxPts : ℚ) * 100 else 0) =
        pyRound2 (100 * (st.total : ℚ) / (st.maxPts : ℚ))
      rw [if_pos h0']
      congr 1
      ring
    · have hmax' : st.maxPts = 0 := hmax
      show pyRound2 (if 0 < st.maxPts then (st.total : ℚ) / (st.maxPts : ℚ) * 100 else 0) = 0
      rw [hmax', if_neg (by norm_num : ¬ (0 : ℤ) < 0)]
      decide

/-- Witness for C1 at the empty criteria list. -/
theorem calculateScore_percentage_cases_witness :
    calculateScore {} [] = Except.ok ⟨0, 0, 100, [], [], [], false, none⟩ ∧
    (⟨0, 0, 100, [], [], [], false, none⟩ : ScoringResult).percentage = 100 :=
  ⟨rfl, (calculateScore_percentage_cases {} [] _ rfl).1 rfl⟩

unseal Rat.mul Rat.add Rat.sub Rat.inv in
/-- Counterexample for C1 as stated: one skill criterion with
`int(1 * 0.4) = 0` possible points gives a non-empty criteria list
with `max_points = 0`, and the percentage is 0, not 100. -/
theorem calculateScore_percentage_cx :
    (calculateScore {} [exZeroMaxCrit]).toOption.map ScoringResult.percentage = some 0 ∧
    (calculateScore {} [exZeroMaxCrit]).toOption.map ScoringResult.max_points = some 0 ∧
    [exZeroMaxCrit] ≠ ([] : List ScoringCriterion) ∧ (0 : ℚ) ≠ 100 := by
  refine ⟨by decide, by decide, by decide, by norm_num⟩

/-! ## Claim C2: `points_possible` and the accumulated `max_points` -/

/-- C2 (amended): for criteria with points in `[1, 100]` and weight in
`[0.1, 5.0]`, the per-criterion `points_possible` and the accumulated
`max_points` both use `int(points * weight)` — truncation toward
zero — not round-to-nearest. -/
theorem calculateScore_points_possible (cd : CandidateData)
    (criteria : List ScoringCriterion) (r : ScoringResult)
    (hb : ∀ c ∈ criteria,
      1 ≤ c.points ∧ c.points ≤ 100 ∧ (1/10 : ℚ) ≤ c.weight ∧ c.weight ≤ 5)
    (h : calculateScore cd criteria = Except.ok r) :
    r.max_points = (criteria.map (fun c => pyInt ((c.points : ℚ) * c.weight))).sum ∧
    (∀ c sk lg ct y e cr, c ∈ criteria →
      criterionResultOf c sk lg ct y e = Except.ok cr →
      cr.points_possible = pyInt ((c.points : ℚ) * c.weight)) := by
  constructor
  · by_cases hc : criteria = []
    · unfold calculateScore at h
      rw [if_pos hc] at h
      cases h
      rw [hc]
      rfl
    · obtain ⟨st, hloop, hr⟩ := calculateScore_ok_elim hc h
      subst hr
      have := scoreLoop_maxPts criteria {} st hloop
      simpa using this
  · intro c sk lg ct y e cr _ hcr
    exact (criterionResultOf_shape hcr).1

unseal Rat.mul Rat.add Rat.sub Rat.inv in
/-- Witness for C2: a single custom criterion with
`points = weight = 1`. -/
theorem calculateScore_points_possible_witness :
    calculateScore {} [exCustomCrit] = Except.ok exCustomRes ∧
    exCustomRes.max_points =
      ([exCustomCrit].map (fun c => pyInt ((c.points : ℚ) * c.weight))).sum :=
  ⟨rfl,
   (calculateScore_points_possible {} [exCustomCrit] exCustomRes
      (by decide) rfl).1⟩

unseal Rat.mul Rat.add Rat.sub Rat.inv in
/-- Counterexample for C2 as stated: `points = 3`, `weight = 0.5`
(both inside the claimed ranges) give `points_possible =
int(1.5) = 1`, but round-to-nearest gives 2. -/
theorem calculateScore_points_possible_cx :
    (calculateScore exTruncCand [exTruncCrit]).toOption.map ScoringResult.max_points =
      some 1 ∧
    1 ≤ exTruncCrit.points ∧ exTruncCrit.points ≤ 100 ∧
    (1/10 : ℚ) ≤ exTruncCrit.weight ∧ exTruncCrit.weight ≤ 5 ∧
    pyRound ((exTruncCrit.points : ℚ) * exTruncCrit.weight) = 2 ∧ (1 : ℤ) ≠ 2 := by
  decide

/-! ## Claim C4: disqualification closure -/

/-- C4: in every successful `calculate_score` result, `disqualified`
holds iff `required_missing` is non-empty; `required_missing` is
exactly the required part of `missing_criteria`; and the
disqualification reason names (at most) the first three missing
criteria values. -/
theorem calculateScore_disqualification (cd : CandidateData)
    (criteria : List ScoringCriterion) (r : ScoringResult)
    (h : calculateScore cd criteria = Except.ok r) :
    (r.disqualified = true ↔ r.required_missing ≠ []) ∧
    r.required_missing = r.missing_criteria.filter (·.is_required) ∧
    (r.disqualified = true →
      r.disqualification_reason =
        some ("Missing required criteria: " ++
              joinSep ", " ((r.required_missing.take 3).map (·.criteria_value)))) := by
  by_cases hc : criteria = []
  · unfold calculateScore at h
    rw [if_pos hc] at h
    cases h
    refine ⟨by simp, rfl, by simp⟩
  · obtain ⟨st, hloop, hr⟩ := calculateScore_ok_elim hc h
    subst hr
    have hinv := scoreLoop_inv criteria {} st hloop rfl rfl
    refine ⟨?_, hinv.2, ?_⟩
    · show (!st.reqMissing.isEmpty) = true ↔ st.reqMissing ≠ []
      simp [List.isEmpty_iff]
    · intro hd
      have hd' : (!st.reqMissing.isEmpty) = true := hd
      show (if !st.reqMissing.isEmpty then
              some ("Missing required criteria: " ++
                    joinSep ", " ((st.reqMissing.take 3).map (·.criteria_value)))
            else none) = _
      rw [if_pos hd']

unseal Rat.mul Rat.add Rat.sub Rat.inv in
/-- Witness for C4: one required skill criterion missing from an
empty candidate. -/
theorem calculateScore_disqualification_witness :
    calculateScore {} [exReqCrit] = Except.ok exReqRes ∧
    (exReqRes.disqualified = true ↔ exReqRes.required_missing ≠ []) ∧
    exReqRes.disqualification_reason = some "Missing required criteria: python" :=
  ⟨rfl, (calculateScore_disqualification {} [exReqCrit] exReqRes rfl).1,
   by decide⟩

/-! ## Claim C10: `total_points` sums the matched criteria only -/

/-- C10: in every successful `calculate_score` result, `total_points`
is the sum of `points_earned` over `matched_criteria` alone; points
carried by unmatched criteria (partial credit) are excluded. -/
theorem calculateScore_total_matched_only (cd : CandidateData)
    (criteria : List ScoringCriterion) (r : ScoringResult)
    (h : calculateScore cd criteria = Except.ok r) :
    r.total_points = (r.matched_criteria.map (·.points_earned)).sum := by
  by_cases hc : criteria = []
  · unfold calculateScore at h
    rw [if_pos hc] at h
    cases h
    rfl
  · obtain ⟨st, hloop, hr⟩ := calculateScore_ok_elim hc h
    subst hr
    exact (scoreLoop_inv criteria {} st hloop rfl rfl).1

unseal Rat.mul Rat.add Rat.sub Rat.inv in
/-- Witness for C10: a candidate one year short of an experience
criterion earns 5 partial points on an unmatched criterion, and they
are excluded from the total. -/
theorem calculateScore_total_matched_only_witness :
    calculateScore exPartialCand [exPartialCrit] = Except.ok exPartialRes ∧
    exPartialRes.total_points =
      (exPartialRes.matched_criteria.map (·.points_earned)).sum ∧
    (exPartialRes.missing_criteria.map (·.points_earned)).sum = 5 :=
  ⟨rfl,
   calculateScore_total_matched_only exPartialCand [exPartialCrit] exPartialRes
     rfl,
   by decide⟩

/-! ## Claim C7: experience criterion evaluation -/

/-- C7 (amended): for an experience criterion with
`min_years = min_value ?? int(value)` (with truthiness fallback:
hypotheses exclude an explicit zero in the optional fields) and
non-negative candidate years: at or above the threshold, a set
`per_unit_points` awards `int(years * per_unit_points)` capped at the
criterion `max_points`, otherwise full points; below the threshold a
non-required criterion earns `int(max_points * years / min_years)`
partial credit marked unmatched, and a required one earns 0.  All
fractional awards use `int(..)` truncation, not round-to-nearest. -/
theorem evaluateCriterion_experience (c : ScoringCriterion)
    (sk : List String) (lg : List (String × String)) (ct : List String)
    (years : ℚ) (e : String) (out : EvalOut) (my : ℤ)
    (htype : pyLower c.criteria_type = "experience")
    (hmv : c.min_value = some my ∨
           (c.min_value = none ∧ pyIntParse? c.criteria_value = some my))
    (hmz : c.min_value ≠ some 0)
    (hy : 0 ≤ years)
    (heval : evaluateCriterion c sk lg ct years e = Except.ok out) :
    ((my : ℚ) ≤ years →
      (∀ pup, c.per_unit_points = some pup → pup ≠ 0 →
        out.matched = true ∧
        out.points = (match c.max_points with
                      | some mp => if mp ≠ 0 then min (pyInt (years * pup)) mp
                                   else pyInt (years * pup)
                      | none => pyInt (years * pup))) ∧
      (c.per_unit_points = none →
        out.matched = true ∧ out.points = pyInt ((c.points : ℚ) * c.weight))) ∧
    (years < (my : ℚ) → c.is_required = false →
      out.matched = false ∧
      out.points = pyInt ((pyInt ((c.points : ℚ) * c.weight) : ℚ) * (years / (my : ℚ)))) ∧
    (years < (my : ℚ) → c.is_required = true →
      out.matched = false ∧ out.points = 0) := by
  unfold evaluateCriterion at heval
  rw [htype] at heval
  simp only [reduceIte, String.reduceEq] at heval
  have hminE :
      (match c.min_value with
       | some m =>
           if m ≠ 0 then Except.ok m
           else match pyIntParse? c.criteria_value with
                | some v => Except.ok v
                | none => Except.error ("invalid literal for int: " ++ c.criteria_value)
       | none =>
           match pyIntParse? c.criteria_value with
           | some v => Except.ok v
           | none => Except.error ("invalid literal for int: " ++ c.criteria_value)) =
        (Except.ok my : Except String ℤ) := by
    rcases hmv with hsome | ⟨hnone, hparse⟩
    · rw [hsome]
      have : my ≠ 0 := fun h0 => hmz (by rw [hsome, h0])
      simp [this]
    · rw [hnone, hparse]
  rw [hminE] at heval
  dsimp only at heval
  by_cases hle : (my : ℚ) ≤ years
  · rw [if_pos hle] at heval
    refine ⟨fun _ => ⟨?_, ?_⟩, fun hlt _ => absurd hle (not_le.mpr hlt),
           fun hlt _ => absurd hle (not_le.mpr hlt)⟩
    · intro pup hpup hpz
      rw [hpup] at heval
      dsimp only at heval
      rw [if_pos hpz] at heval
      cases heval
      exact ⟨rfl, rfl⟩
    · intro hpup
      rw [hpup] at heval
      dsimp only at heval
      cases heval
      exact ⟨rfl, rfl⟩
  · rw [if_neg hle] at heval
    have hlt : years < (my : ℚ) := lt_of_not_le hle
    refine ⟨fun hle' => absurd hle' hle, fun _ hreq => ?_, fun _ hreq => ?_⟩
    · rw [hreq] at heval
      by_cases hy0 : 0 < years
      · rw [if_pos (by simp [hy0])] at heval
        cases heval
        exact ⟨rfl, rfl⟩
      · have hyz : years = 0 := le_antisymm (not_lt.mp hy0) hy
        rw [if_neg (by simp [hy0])] at heval
        cases heval
        refine ⟨rfl, ?_⟩
        rw [hyz]
        norm_num [pyInt, ratFloorZ]
    · rw [hreq] at heval
      rw [if_neg (by simp)] at heval
      cases heval
      exact ⟨rfl, rfl⟩

unseal Rat.mul Rat.add Rat.sub Rat.inv in
/-- Witness for C7: a candidate with 1 year against a 2-year
non-required criterion earns `int(10 * 1/2) = 5` partial points,
unmatched. -/
theorem evaluateCriterion_experience_witness :
    evaluateCriterion exPartialCrit [] [] [] 1 "" = Except.ok exPartialOut ∧
    exPartialOut.matched = false ∧
    exPartialOut.points =
      pyInt ((pyInt ((exPartialCrit.points : ℚ) * exPartialCrit.weight) : ℚ) *
             ((1 : ℚ) / ((2 : ℤ) : ℚ))) :=
  ⟨rfl,
   (evaluateCriterion_experience exPartialCrit [] [] [] 1 "" exPartialOut 2
      rfl (Or.inr ⟨rfl, rfl⟩) (by decide) (by norm_num) rfl).2.1
     (by norm_num) rfl⟩

unseal Rat.mul Rat.add Rat.sub Rat.inv in
/-- Counterexample for C7 as stated: 3 years at 0.5 points per year
earn `int(1.5) = 1` point, while round-to-nearest (as the claim
words it) gives 2. -/
theorem evaluateCriterion_experience_cx :
    (evaluateCriterion exPerUnitCrit [] [] [] 3 "").toOption.map EvalOut.points =
      some 1 ∧
    pyRound ((3 : ℚ) * (1/2)) = 2 ∧ (1 : ℤ) ≠ 2 := by
  decide

/-! ## Claim C3: rank monotonicity of `find_matches` -/

/-- C3: the list returned by the sort / rank / truncate step of
`find_matches` has length at most `limit`, carries
`rank = index + 1` at every 0-based index, and is sorted by
`combined_score` descending. -/
theorem findMatchesFinalize_ranked (results : List MatchResult) (limit : ℕ) :
    (findMatchesFinalize results limit).length ≤ limit ∧
    (∀ i (h : i < (findMatchesFinalize results limit).length),
      ((findMatchesFinalize results limit).get ⟨i, h⟩).rank = i + 1) ∧
    (∀ i (h : i + 1 < (findMatchesFinalize results limit).length),
      ((findMatchesFinalize results limit).get ⟨i + 1, h⟩).combined_score ≤
      ((findMatchesFinalize results limit).get
          ⟨i, Nat.lt_of_succ_lt h⟩).combined_score) := by
  unfold findMatchesFinalize
  have hsort : (results.mergeSort
      (fun a b => decide (b.combined_score ≤ a.combined_score))).Pairwise
      (fun a b => (decide (b.combined_score ≤ a.combined_score)) = true) :=
    List.sorted_mergeSort
      (by intro a b c hab hbc
          simp only [decide_eq_true_eq] at *
          exact le_trans hbc hab)
      (by intro a b
          simp only [Bool.or_eq_true, decide_eq_true_eq]
          exact le_total b.combined_score a.combined_score)
      results
  have htake := hsort.sublist
    (List.take_sublist limit
      (results.mergeSort (fun a b => decide (b.combined_score ≤ a.combined_score))))
  refine ⟨?_, ?_, ?_⟩
  · simp [List.length_take]
  · intro i h
    simp only [List.get_eq_getElem, List.getElem_map, List.getElem_enum]
  · intro i h
    have hlen : ((((results.mergeSort
        (fun a b => decide (b.combined_score ≤ a.combined_score))).take limit).enum.map
        (fun p => { p.2 with rank := p.1 + 1 })).length) =
        ((results.mergeSort
          (fun a b => decide (b.combined_score ≤ a.combined_score))).take limit).length := by
      simp
    have hi1 : i + 1 < ((results.mergeSort
        (fun a b => decide (b.combined_score ≤ a.combined_score))).take limit).length := by
      rw [← hlen]; exact h
    have hrel := List.pairwise_iff_getElem.mp htake i (i + 1)
      (Nat.lt_of_succ_lt hi1) hi1 (Nat.lt_succ_self i)
    simp only [decide_eq_true_eq] at hrel
    simpa only [List.get_eq_getElem, List.getElem_map, List.getElem_enum] using hrel

unseal List.merge List.mergeSort in
/-- Witness for C3 on the two-candidate example: ranks 1 and 2,
scores 62 then 54. -/
theorem findMatchesFinalize_ranked_witness :
    ((findMatchesFinalize exMatches 10).get ⟨0, by decide⟩).rank = 1 ∧
    ((findMatchesFinalize exMatches 10).get ⟨1, by decide⟩).rank = 2 ∧
    ((findMatchesFinalize exMatches 10).get ⟨1, by decide⟩).combined_score ≤
      ((findMatchesFinalize exMatches 10).get ⟨0, by decide⟩).combined_score :=
  ⟨(findMatchesFinalize_ranked exMatches 10).2.1 0 (by decide),
   (findMatchesFinalize_ranked exMatches 10).2.1 1 (by decide),
   (findMatchesFinalize_ranked exMatches 10).2.2 0 (by decide)⟩

/-! ## Claim C5: column-split totality -/

theorem splitColumnLines_eq (threshold : ℚ) :
    ∀ lines : List PyOcrLine,
      (splitColumnLines threshold lines).1 =
        ((lines.filter keptLine).filter
            (fun l => decide (l.bbox.xCoord < threshold))).map
          (fun l => (l.bbox.yCoord, l.text)) ∧
      (splitColumnLines threshold lines).2 =
        ((lines.filter keptLine).filter
            (fun l => !decide (l.bbox.xCoord < threshold))).map
          (fun l => (l.bbox.yCoord, l.text))
  | [] => by simp [splitColumnLines]
  | l :: ls => by
      have ih := splitColumnLines_eq threshold ls
      by_cases hskip : (l.bbox.isFalsy || l.text = "") = true
      · have hk : keptLine l = false := by simp [keptLine, hskip]
        simp only [splitColumnLines, hskip, if_true, List.filter_cons, hk,
          Bool.false_eq_true, if_false]
        exact ih
      · have hk : keptLine l = true := by simp [keptLine]; simpa using hskip
        by_cases hx : l.bbox.xCoord < threshold
        · simp only [splitColumnLines, hskip, if_false, if_pos hx,
            List.filter_cons, hk, if_true, decide_eq_true hx, Bool.not_true,
            Bool.false_eq_true, List.map_cons]
          exact ⟨by rw [ih.1], by rw [ih.2]⟩
        · simp only [splitColumnLines, hskip, if_false, if_neg hx,
            List.filter_cons, hk, if_true, decide_eq_false hx, Bool.not_false,
            Bool.false_eq_true, List.map_cons]
          exact ⟨by rw [ih.1], by rw [ih.2]⟩

/-- C5 (amended): `separate_columns` places every line that has a
non-empty text and a non-empty bbox: those with left-x below the
threshold go left, the others right, and the two columns together are
a permutation of the kept lines' texts.  Lines with an empty text or
an empty bbox are skipped. -/
theorem separateColumns_totality (lines : List PyOcrLine) (threshold : ℚ) :
    ((separateColumns lines threshold).1).Perm
      (((lines.filter keptLine).filter
          (fun l => decide (l.bbox.xCoord < threshold))).map (·.text)) ∧
    ((separateColumns lines threshold).2).Perm
      (((lines.filter keptLine).filter
          (fun l => !decide (l.bbox.xCoord < threshold))).map (·.text)) ∧
    (((separateColumns lines threshold).1 ++
      (separateColumns lines threshold).2).Perm
      ((lines.filter keptLine).map (·.text))) := by
  have hsplit := splitColumnLines_eq threshold lines
  have h1 : ((separateColumns lines threshold).1).Perm
      (((lines.filter keptLine).filter
          (fun l => decide (l.bbox.xCoord < threshold))).map (·.text)) := by
    have he : (separateColumns lines threshold).1 =
        ((splitColumnLines threshold lines).1.mergeSort
          (fun a b => decide (a.1 ≤ b.1))).map (fun p => p.2) := rfl
    rw [he]
    refine ((List.mergeSort_perm (splitColumnLines threshold lines).1 _).map
      (fun p : ℚ × String => p.2)).trans ?_
    rw [hsplit.1, List.map_map]
    exact List.Perm.refl _
  have h2 : ((separateColumns lines threshold).2).Perm
      (((lines.filter keptLine).filter
          (fun l => !decide (l.bbox.xCoord < threshold))).map (·.text)) := by
    have he : (separateColumns lines threshold).2 =
        ((splitColumnLines threshold lines).2.mergeSort
          (fun a b => decide (a.1 ≤ b.1))).map (fun p => p.2) := rfl
    rw [he]
    refine ((List.mergeSort_perm (splitColumnLines threshold lines).2 _).map
      (fun p : ℚ × String => p.2)).trans ?_
    rw [hsplit.2, List.map_map]
    exact List.Perm.refl _
  refine ⟨h1, h2, ?_⟩
  refine (h1.append h2).trans ?_
  rw [← List.map_append]
  exact (List.filter_append_perm
    (fun l => decide (l.bbox.xCoord < threshold))
    (lines.filter keptLine)).map (fun l : PyOcrLine => l.text)

unseal List.merge List.mergeSort in
/-- Counterexample for C5 as stated: a line with text `"a"` but an
empty bbox is dropped, so the two columns together are not a
permutation of the input texts. -/
theorem separateColumns_drop_cx :
    (separateColumns [exDropLine] 500).1 ++ (separateColumns [exDropLine] 500).2 = [] ∧
    [exDropLine].map PyOcrLine.text = ["a"] ∧
    ¬ (((separateColumns [exDropLine] 500).1 ++
        (separateColumns [exDropLine] 500).2).Perm
        ([exDropLine].map PyOcrLine.text)) := by
  refine ⟨by decide, by decide, by decide⟩

/-! ## Claim C6: degree-prefixed lines are never section headers -/

theorem foldl_fixed {α β : Type _} (f : α → β → α) :
    ∀ (l : List β) (a : α), (∀ a' b, b ∈ l → f a' b = a') → l.foldl f a = a
  | [], _, _ => rfl
  | b :: bs, a, h => by
      rw [List.foldl_cons, h a b (List.mem_cons_self b bs)]
      exact foldl_fixed f bs a (fun a' b' hb' => h a' b' (List.mem_cons_of_mem b hb'))

/-- C6: whatever the `SequenceMatcher` similarity `sim` does, a line
whose normalised form starts with a degree term is rejected by
`fuzzy_match` in section-header mode for every pattern and threshold,
is never classified as a header line, and a text all of whose lines
start with degree terms yields no section headers at all. -/
theorem fuzzyMatch_degree_reject (sim : String → String → ℚ) :
    (∀ line pat threshold,
      degreeStarts.any (fun p => pyStartsWith (normalizeText line) p) = true →
      fuzzyMatch sim line pat threshold true = false) ∧
    (∀ line,
      degreeStarts.any (fun p => pyStartsWith (normalizeText line) p) = true →
      isHeaderLine sim line = none) ∧
    (∀ text,
      (∀ l ∈ pySplitChar '\n' text,
        degreeStarts.any (fun p => pyStartsWith (normalizeText (pyStrip l)) p) = true) →
      findSectionHeaders sim text = []) := by
  have hfm : ∀ line pat threshold,
      degreeStarts.any (fun p => pyStartsWith (normalizeText line) p) = true →
      fuzzyMatch sim line pat threshold true = false := by
    intro line pat threshold h
    unfold fuzzyMatch
    simp only [Bool.true_and, h]
    by_cases h1 : decide ((normalizeText pat).length * 3 < (normalizeText line).length) = true
    · rw [if_pos h1]
    · rw [if_neg h1, if_pos trivial]
  have hhl : ∀ line,
      degreeStarts.any (fun p => pyStartsWith (normalizeText line) p) = true →
      isHeaderLine sim line = none := by
    intro line h
    unfold isHeaderLine
    rw [List.findSome?_eq_none_iff]
    intro sp _
    have : (sp.2.any fun pat => fuzzyMatch sim line pat (3/4) true) = false := by
      rw [List.any_eq_false]
      intro pat _
      simp [hfm line pat (3/4) h]
    rw [this]
    rfl
  refine ⟨hfm, hhl, ?_⟩
  intro text hall
  have hfold : (pySplitChar '\n' text).enum.foldl
      (sectionScanStep sim (pySplitChar '\n' text)) {} = ({} : SectionScanState) := by
    apply foldl_fixed
    intro st p hp
    unfold sectionScanStep
    by_cases he : pyStrip p.2 = ""
    · rw [if_pos he]
    · rw [if_neg he]
      have hmem : p.2 ∈ pySplitChar '\n' text := by
        obtain ⟨i, x⟩ := p
        have hme := List.mem_enum hp
        rw [hme.2]
        exact List.getElem_mem hme.1
      rw [hhl (pyStrip p.2) (hall p.2 hmem)]
  unfold findSectionHeaders
  dsimp only
  rw [hfold]

/-- Witness for C6: under an adversarial similarity that always
reports 1, the line `Bachelor of Science in Education` matches no
section pattern and is no header. -/
theorem fuzzyMatch_degree_reject_witness :
    fuzzyMatch (fun _ _ => (1 : ℚ)) "Bachelor of Science in Education"
      "education" (3/4) true = false ∧
    isHeaderLine (fun _ _ => (1 : ℚ)) "Bachelor of Science in Education" = none ∧
    findSectionHeaders (fun _ _ => (1 : ℚ)) "Bachelor of Science in Education" = [] :=
  ⟨(fuzzyMatch_degree_reject (fun _ _ => (1 : ℚ))).1
     "Bachelor of Science in Education" "education" (3/4) (by decide),
   (fuzzyMatch_degree_reject (fun _ _ => (1 : ℚ))).2.1
     "Bachelor of Science in Education" (by decide),
   (fuzzyMatch_degree_reject (fun _ _ => (1 : ℚ))).2.2
     "Bachelor of Science in Education" (by decide)⟩

/-! ## Claim C9: the table detector -/

theorem lookup_appendToBucket_self (l : TableLine) :
    ∀ (gs : List (ℤ × List TableLine)) (b : ℤ),
      (appendToBucket gs b l).lookup b = some ((gs.lookup b).getD [] ++ [l])
  | [], b => by simp [appendToBucket, List.lookup]
  | (b', g) :: rest, b => by
      by_cases h : b' = b
      · subst h
        simp [appendToBucket, List.lookup]
      · have hne : (b == b') = false := by simp [Ne.symm h]
        simp only [appendToBucket, if_neg h, List.lookup, hne]
        exact lookup_appendToBucket_self l rest b

theorem lookup_appendToBucket_ne (l : TableLine) (b b' : ℤ) (hne : b' ≠ b) :
    ∀ gs : List (ℤ × List TableLine),
      (appendToBucket gs b l).lookup b' = gs.lookup b'
  | [] => by
      have hf : (b' == b) = false := by simp [hne]
      simp [appendToBucket, List.lookup, hf]
  | (k, g) :: rest => by
      by_cases h : k = b
      · subst h
        have hf : (b' == k) = false := by simp [hne]
        simp [appendToBucket, List.lookup, hf]
      · simp only [appendToBucket, if_neg h, List.lookup]
        rw [lookup_appendToBucket_ne l b b' hne rest]

theorem keys_appendToBucket (l : TableLine) (b : ℤ) :
    ∀ gs : List (ℤ × List TableLine),
      (appendToBucket gs b l).map Prod.fst =
        if b ∈ gs.map Prod.fst then gs.map Prod.fst else gs.map Prod.fst ++ [b]
  | [] => by simp [appendToBucket]
  | (k, g) :: rest => by
      by_cases h : k = b
      · subst h
        simp [appendToBucket]
      · have hbk : b ≠ k := fun hc => h hc.symm
        simp only [appendToBucket, if_neg h, List.map_cons]
        rw [keys_appendToBucket l b rest]
        by_cases hb : b ∈ rest.map Prod.fst
        · rw [if_pos hb, if_pos (List.mem_cons_of_mem k hb)]
        · rw [if_neg hb, if_neg (by simp [hbk, hb])]
          simp

theorem yGroups_fold_lookup :
    ∀ (ls : List TableLine) (gs : List (ℤ × List TableLine)) (b : ℤ),
      (ls.foldl tableGroupStep gs).lookup b =
        match gs.lookup b with
        | some g => some (g ++ (ls.filter tableLineValid).filter
            (fun l => decide (tableLineBucket l = b)))
        | none =>
            if (ls.filter tableLineValid).filter
                (fun l => decide (tableLineBucket l = b)) = [] then none
            else some ((ls.filter tableLineValid).filter
                (fun l => decide (tableLineBucket l = b)))
  | [], gs, b => by
      cases hg : gs.lookup b <;> simp [hg]
  | l :: ls, gs, b => by
      rw [List.foldl_cons]
      by_cases hv : tableLineValid l = true
      · by_cases hb : tableLineBucket l = b
        · have hstep : tableGroupStep gs l = appendToBucket gs b l := by
            rw [tableGroupStep, if_pos hv, hb]
          rw [hstep, yGroups_fold_lookup ls (appendToBucket gs b l) b,
            lookup_appendToBucket_self l gs b]
          have hfib : (List.filter tableLineValid (l :: ls)).filter
              (fun x => decide (tableLineBucket x = b)) =
              l :: (List.filter tableLineValid ls).filter
                (fun x => decide (tableLineBucket x = b)) := by
            rw [List.filter_cons_of_pos hv, List.filter_cons_of_pos (by simpa using hb)]
          rw [hfib]
          cases hg : gs.lookup b <;> simp [hg]
        · have hstep : tableGroupStep gs l = appendToBucket gs (tableLineBucket l) l := by
            rw [tableGroupStep, if_pos hv]
          rw [hstep, yGroups_fold_lookup ls _ b,
            lookup_appendToBucket_ne l (tableLineBucket l) b (fun hc => hb hc.symm) gs]
          have hfib : (List.filter tableLineValid (l :: ls)).filter
              (fun x => decide (tableLineBucket x = b)) =
              (List.filter tableLineValid ls).filter
                (fun x => decide (tableLineBucket x = b)) := by
            rw [List.filter_cons_of_pos hv, List.filter_cons_of_neg (by simpa using hb)]
          rw [hfib]
      · have hstep : tableGroupStep gs l = gs := by
          rw [tableGroupStep, if_neg hv]
        have hfib : List.filter tableLineValid (l :: ls) =
            List.filter tableLineValid ls :=
          List.filter_cons_of_neg hv
        rw [hstep, yGroups_fold_lookup ls gs b, hfib]

theorem keys_fold_nodup :
    ∀ (ls : List TableLine) (gs : List (ℤ × List TableLine)),
      (gs.map Prod.fst).Nodup → ((ls.foldl tableGroupStep gs).map Prod.fst).Nodup
  | [], gs, h => h
  | l :: ls, gs, h => by
      rw [List.foldl_cons]
      apply keys_fold_nodup ls
      by_cases hv : tableLineValid l = true
      · rw [tableGroupStep, if_pos hv, keys_appendToBucket]
        by_cases hb : tableLineBucket l ∈ gs.map Prod.fst
        · rw [if_pos hb]; exact h
        · rw [if_neg hb]
          simp only [List.nodup_append, List.nodup_cons, List.nodup_nil]
          exact ⟨h, by simp, by simpa using hb⟩
      · rw [tableGroupStep, if_neg hv]; exact h

theorem keys_fold_mem :
    ∀ (ls : List TableLine) (gs : List (ℤ × List TableLine)) (b : ℤ),
      b ∈ (ls.foldl tableGroupStep gs).map Prod.fst ↔
        b ∈ gs.map Prod.fst ∨ b ∈ (ls.filter tableLineValid).map tableLineBucket
  | [], gs, b => by simp
  | l :: ls, gs, b => by
      rw [List.foldl_cons]
      by_cases hv : tableLineValid l = true
      · rw [keys_fold_mem ls (tableGroupStep gs l) b,
          List.filter_cons_of_pos hv, List.map_cons]
        have hkeys : b ∈ (tableGroupStep gs l).map Prod.fst ↔
            b ∈ gs.map Prod.fst ∨ b = tableLineBucket l := by
          rw [tableGroupStep, if_pos hv, keys_appendToBucket]
          by_cases hb : tableLineBucket l ∈ gs.map Prod.fst
          · rw [if_pos hb]
            constructor
            · exact Or.inl
            · rintro (h | h)
              · exact h
              · rw [h]; exact hb
          · rw [if_neg hb]
            simp
        rw [hkeys]
        simp only [List.mem_cons]
        tauto
      · rw [keys_fold_mem ls (tableGroupStep gs l) b, List.filter_cons_of_neg hv,
          tableGroupStep, if_neg hv]

/-- C9 (amended): `_detect_tables_from_lines` buckets each bbox-
carrying line by its y-center rounded to the nearest **20** px
(half-to-even), sorts each bucket by left-x, makes a table row of
every bucket holding at least 2 lines (taken in ascending bucket
order, with **no** adjacency requirement between buckets), and emits
one table exactly when at least 2 such rows exist, with `col_count`
the maximum row length. -/
theorem detectTablesFromLines_char (lines : List TableLine) :
    detectTablesFromLines lines =
      if lines.length < 3 then []
      else
        let rows := ((((lines.filter tableLineValid).map tableLineBucket).dedup.mergeSort
            (fun a b => decide (a ≤ b))).filterMap (fun b =>
          if 2 ≤ (tableFiber lines b).length then
            some (((tableFiber lines b).mergeSort
              (fun a b => decide (tableSortX a ≤ tableSortX b))).map (·.text))
          else none))
        if 2 ≤ rows.length then
          [⟨rows, rows.length, (rows.map List.length).foldl max 0⟩]
        else [] := by
  by_cases hlen : lines.length < 3
  · rw [detectTablesFromLines, if_pos hlen, if_pos hlen]
  · rw [detectTablesFromLines, if_neg hlen, if_neg hlen]
    dsimp only
    have hnodup1 : ((yGroupsOf lines).map Prod.fst).Nodup := by
      unfold yGroupsOf
      exact keys_fold_nodup lines [] (by simp)
    have hkeys : ((yGroupsOf lines).map Prod.fst).mergeSort
        (fun a b => decide (a ≤ b)) =
        ((lines.filter tableLineValid).map tableLineBucket).dedup.mergeSort
          (fun a b => decide (a ≤ b)) := by
      have htrans : ∀ a b c : ℤ, decide (a ≤ b) = true → decide (b ≤ c) = true →
          decide (a ≤ c) = true := by
        intro a b c hab hbc
        simp only [decide_eq_true_eq] at *
        exact le_trans hab hbc
      have htotal : ∀ a b : ℤ, (decide (a ≤ b) || decide (b ≤ a)) = true := by
        intro a b
        simp only [Bool.or_eq_true, decide_eq_true_eq]
        exact le_total a b
      apply List.eq_of_perm_of_sorted (r := fun a b : ℤ => a ≤ b)
      · refine (List.mergeSort_perm _ _).trans
          (.trans ?_ (List.mergeSort_perm _ _).symm)
        rw [List.perm_ext_iff_of_nodup hnodup1 (List.nodup_dedup _)]
        intro b
        rw [List.mem_dedup, yGroupsOf, keys_fold_mem lines [] b]
        simp
      · exact (List.sorted_mergeSort htrans htotal _).imp
          (fun h => by simpa using h)
      · exact (List.sorted_mergeSort htrans htotal _).imp
          (fun h => by simpa using h)
    rw [hkeys]
    have hrows : (((lines.filter tableLineValid).map tableLineBucket).dedup.mergeSort
        (fun a b => decide (a ≤ b))).filterMap (tableRowOf (yGroupsOf lines)) =
        (((lines.filter tableLineValid).map tableLineBucket).dedup.mergeSort
          (fun a b => decide (a ≤ b))).filterMap (fun b =>
            if 2 ≤ (tableFiber lines b).length then
              some (((tableFiber lines b).mergeSort
                (fun a b => decide (tableSortX a ≤ tableSortX b))).map (·.text))
            else none) := by
      apply List.filterMap_congr
      intro b hb
      have hbmem : b ∈ (lines.filter tableLineValid).map tableLineBucket := by
        have := (List.mergeSort_perm
          ((lines.filter tableLineValid).map tableLineBucket).dedup
          (fun a b => decide (a ≤ b))).mem_iff.mp hb
        exact List.mem_dedup.mp this
      have hfib_ne : tableFiber lines b ≠ [] := by
        obtain ⟨l, hl, hbl⟩ := List.mem_map.mp hbmem
        intro hc
        have : l ∈ tableFiber lines b := by
          rw [tableFiber, List.mem_filter]
          exact ⟨hl, by simp [hbl]⟩
        rw [hc] at this
        cases this
      have hlk : (yGroupsOf lines).lookup b = some (tableFiber lines b) := by
        rw [yGroupsOf, yGroups_fold_lookup lines [] b]
        simp only [List.lookup_nil]
        rw [if_neg (by exact hfib_ne)]
        rfl
      rw [tableRowOf, hlk]
    rw [hrows]

unseal Rat.mul Rat.add Rat.sub Rat.inv List.merge List.mergeSort in
/-- Counterexample for C9 as stated: on `exTableLines` the code emits
a table (20-px buckets 40 and 1000, far apart, each holding 2
lines), while under 25-px bucketing only one bucket holds 2 lines,
so the claimed detector would emit no table; the two emitting
buckets are also not adjacent. -/
theorem detectTablesFromLines_cx :
    detectTablesFromLines exTableLines ≠ [] ∧
    (((exTableLines.filter tableLineValid).map claimBucket25).dedup.filter (fun b =>
      2 ≤ ((exTableLines.filter tableLineValid).filter
            (fun l => decide (claimBucket25 l = b))).length)).length = 1 ∧
    ((exTableLines.filter tableLineValid).map tableLineBucket).dedup.filter (fun b =>
      2 ≤ (tableFiber exTableLines b).length) = [40, 1000] := by
  refine ⟨by decide, by decide, by decide⟩

/-! ## Claim C8: structured extraction fails iff no tier-1 field -/

/-- C8: for every request and any (total) tier-2 and raw-section
extractors, the structured-extraction route raises 422
(`NoPersonalInfo`) exactly when `extract_tier1_personal_info` finds
no field; whenever at least one tier-1 field is found it succeeds,
returning a response carrying that tier-1 data. -/
theorem extractStructured_outcome (t2f : String → Tier2)
    (t2c : String → String → Tier2) (rawf : String → RawSections)
    (req : ExtractRequest) :
    (extractStructured t2f t2c rawf req = Except.error 422 ↔
      (extractTier1 req.text).isEmptyDict = true) ∧
    ((extractTier1 req.text).isEmptyDict = false →
      ∃ resp, extractStructured t2f t2c rawf req = Except.ok resp ∧
        resp.tier1 = extractTier1 req.text) := by
  unfold extractStructured
  dsimp only
  by_cases h : (extractTier1 req.text).isEmptyDict = true
  · rw [if_pos h]
    exact ⟨⟨fun _ => h, fun _ => rfl⟩, fun hf => absurd h (by simp [hf])⟩
  · rw [if_neg h]
    exact ⟨⟨fun hc => Except.noConfusion hc, fun hc => absurd hc h⟩,
           fun _ => ⟨_, rfl, rfl⟩⟩

/-- Witness for C8: the two-word text `John Doe` yields a name, so
the route succeeds. -/
theorem extractStructured_outcome_witness :
    (extractTier1 "John Doe").isEmptyDict = false ∧
    (∃ resp, extractStructured (fun _ => {}) (fun _ _ => {}) (fun _ => {})
        ⟨"John Doe", none, "en", "tiered"⟩ = Except.ok resp ∧
      resp.tier1 = extractTier1 "John Doe") :=
  ⟨by decide,
   (extractStructured_outcome (fun _ => {}) (fun _ _ => {}) (fun _ => {})
      ⟨"John Doe", none, "en", "tiered"⟩).2 (by decide)⟩

end CvSort
